import Mathlib

/-
Shallow embedding of the QOI stream decoder (src/decoder.rs of qoiviewer).

Bytes are modelled as natural numbers; every value read from a stream is a
u8, i.e. strictly below 256, and u8 wrapping arithmetic is modelled with
explicit `% 256`.  A byte source (`R: Read`) is modelled as the list of
bytes it will deliver, and `read_exact` as taking a prefix of that list,
failing when the list is too short.
-/

/- Pixel: four unsigned 8-bit components (decoder.rs lines 10-53). -/
structure Pixel where
  r : Nat
  g : Nat
  b : Nat
  a : Nat
  deriving DecidableEq, Repr

def Pixel.zero : Pixel := ⟨0, 0, 0, 0⟩

/- Pixel::hash_index: (r*3 + g*5 + b*7 + a*11) % 64. -/
def Pixel.hash_index (p : Pixel) : Nat :=
  (p.r * 3 + p.g * 5 + p.b * 7 + p.a * 11) % 64

/- WrappedU8: u8 value with wrapping Add/Sub (decoder.rs lines 100-122). -/
structure WrappedU8 where
  val : Nat
  deriving DecidableEq, Repr

def WrappedU8.into_inner (x : WrappedU8) : Nat := x.val

/- impl Add of u8 for WrappedU8: wrapping_add. -/
def WrappedU8.add (x : WrappedU8) (rhs : Nat) : WrappedU8 :=
  ⟨(x.val + rhs) % 256⟩

/- impl Sub of u8 for WrappedU8: wrapping_sub. -/
def WrappedU8.sub (x : WrappedU8) (rhs : Nat) : WrappedU8 :=
  ⟨(x.val + (256 - rhs % 256)) % 256⟩

/- u8::wrapping_sub, used when un-biasing decoded fields; for a, b < 256
   this is (a - b) mod 256. -/
def wrapping_sub (a b : Nat) : Nat :=
  (a + (256 - b % 256)) % 256

/- The QOIChunk enum (decoder.rs lines 124-132). -/
inductive QOIChunk where
  | ColorRGB (p : Pixel)
  | ColorRGBA (p : Pixel)
  | Index (i : Nat)
  | Diff (dr dg db : Nat)
  | Luma (diff_green drdg dbdg : Nat)
  | Run (n : Nat)
  deriving DecidableEq, Repr

def INVALID_CHUNK : QOIChunk := QOIChunk.Run 255

/- QOIChunk::get_size: number of bytes the chunk consumes. -/
def QOIChunk.get_size : QOIChunk → Nat
  | QOIChunk.ColorRGB _ => 4
  | QOIChunk.ColorRGBA _ => 5
  | QOIChunk.Index _ => 1
  | QOIChunk.Diff _ _ _ => 1
  | QOIChunk.Luma _ _ _ => 2
  | QOIChunk.Run _ => 1

def QOI_END_MARKER : List Nat := [0, 0, 0, 0, 0, 0, 0, 1]

/- tag_2bit (decoder.rs lines 422-425): (x & 0b11000000) >> 6 == tag. -/
def tag_2bit (x tag : Nat) : Bool :=
  ((x &&& 0xC0) >>> 6) == tag

/- The QOIHeader struct (decoder.rs lines 150-156). -/
structure QOIHeader where
  width : Nat
  height : Nat
  channels : Nat
  colorspace : Nat
  deriving DecidableEq, Repr

/- QOIError (decoder.rs lines 204-208).  The first variant is named after
   std io in the source; its payload (the io error value) carries no
   information the decoder inspects, so it is dropped here. -/
inductive QOIError where
  | IOFault
  | IncorrectMagic
  deriving DecidableEq, Repr

/- Read::read_exact on a list-modelled source: deliver exactly n bytes or
   fail (truncated stream). -/
def readExact (source : List Nat) (n : Nat) : Option (List Nat × List Nat) :=
  if n ≤ source.length then some (source.take n, source.drop n) else none

/- u32::from_be_bytes over four bytes. -/
def be_u32 (bytes : List Nat) : Nat :=
  bytes.getD 0 0 * 16777216 + bytes.getD 1 0 * 65536 +
    bytes.getD 2 0 * 256 + bytes.getD 3 0

/- ImageDecoder::verify_magic (decoder.rs lines 170-175): the bytes parse
   as utf8 and equal "qoif", which holds exactly for the ASCII bytes of
   q, o, i, f. -/
def verify_magic (buf : List Nat) : Bool :=
  buf == [0x71, 0x6F, 0x69, 0x66]

/- ImageDecoder::parse_header (decoder.rs lines 177-193): read exactly 14
   bytes, check the magic, expose big-endian width and height and the raw
   channels and colorspace bytes.  Also returns the un-consumed remainder
   of the source. -/
def parse_header (source : List Nat) : Except QOIError (QOIHeader × List Nat) :=
  match readExact source 14 with
  | none => Except.error QOIError.IOFault
  | some (header_bytes, rest) =>
    if verify_magic (header_bytes.take 4) then
      Except.ok
        ({ width := be_u32 ((header_bytes.drop 4).take 4),
           height := be_u32 ((header_bytes.drop 8).take 4),
           channels := header_bytes.getD 12 0,
           colorspace := header_bytes.getD 13 0 }, rest)
    else Except.error QOIError.IncorrectMagic

/- ImageDecoder (decoder.rs lines 158-202): the source that remains after
   the header was consumed, plus the parsed header. -/
structure ImageDecoder where
  source : List Nat
  header : QOIHeader
  deriving DecidableEq, Repr

/- ImageDecoder::new: parse the header first; on failure no decoder (and
   hence no chunk iterator) is ever produced. -/
def ImageDecoder.new (source : List Nat) : Except QOIError ImageDecoder :=
  match parse_header source with
  | Except.error e => Except.error e
  | Except.ok (h, rest) => Except.ok { source := rest, header := h }

/- EvaluatedChunk (decoder.rs lines 210-214), extended with one extra
   outcome: readAbort models the panic raised by
   read_exact(..).expect("Failed to read source") in next_chunk — on a
   failed or short read the Rust process aborts instead of returning any
   EvaluatedChunk value. -/
inductive EvaluatedChunk where
  | Ok (p : Pixel)
  | EndMarker
  | Faulty (msg : String)
  | readAbort
  deriving DecidableEq, Repr

/- The DecodeChunks iterator state (decoder.rs lines 218-230).  The `seen`
   array of 64 pixels is modelled as a function from Fin 64. -/
structure DecodeChunks where
  decoder : ImageDecoder
  ended : Bool
  prev : Pixel
  seen : Fin 64 → Pixel
  window : List Nat
  window_processed : Nat
  run_active : Bool
  run_length : Nat

/- DecodeChunks::new (decoder.rs lines 236-250). -/
def DecodeChunks.new (decoder : ImageDecoder) : DecodeChunks :=
  { decoder := decoder,
    ended := false,
    seen := fun _ => Pixel.zero,
    prev := ⟨0, 0, 0, 255⟩,
    window := List.replicate 8 0,
    window_processed := 8,
    run_active := false,
    run_length := 0 }

/- A decode session over a post-header byte stream; chunk decoding never
   reads the header, so a fixed dummy header is used. -/
def session (source : List Nat) : DecodeChunks :=
  DecodeChunks.new { source := source, header := ⟨0, 0, 0, 0⟩ }

/- DecodeChunks::decode_next_chunk (decoder.rs lines 252-322).  A method
   on &self that reads only self.window and self.prev.a; modelled as a
   function of those two inputs.  The match arms are tried in source
   order; the unmatched arm (matched = false, chunk = INVALID_CHUNK)
   returns None. -/
def decode_next_chunk (window : List Nat) (prev_a : Nat) : Option QOIChunk :=
  let tag := window.getD 0 0
  let buf := window.drop 1
  if tag == 0xFE then
    some (QOIChunk.ColorRGB ⟨buf.getD 0 0, buf.getD 1 0, buf.getD 2 0, prev_a⟩)
  else if tag == 0xFF then
    some (QOIChunk.ColorRGBA ⟨buf.getD 0 0, buf.getD 1 0, buf.getD 2 0, buf.getD 3 0⟩)
  else if tag_2bit tag 0b00 && window.getD 1 0 != tag then
    some (QOIChunk.Index (tag &&& 0x3F))
  else if tag_2bit tag 0b01 then
    some (QOIChunk.Diff (wrapping_sub ((tag >>> 4) &&& 0x03) 2)
      (wrapping_sub ((tag >>> 2) &&& 0x03) 2)
      (wrapping_sub (tag &&& 0x03) 2))
  else if tag_2bit tag 0b10 then
    let diffs := buf.getD 0 0
    some (QOIChunk.Luma (wrapping_sub (tag &&& 0x3F) 32)
      (wrapping_sub ((diffs >>> 4) &&& 0x0F) 8)
      (wrapping_sub (diffs &&& 0x0F) 8))
  else if tag_2bit tag 0b11 then
    some (QOIChunk.Run (tag &&& 0x3F))
  else
    none

/- DecodeChunks::transform_chunk (decoder.rs lines 325-347), a method on
   &self reading self.seen and self.prev; modelled as a function of those.
   The Index read seen[index] is total here via index % 64; the decoder
   only produces indices below 64 (tag & 0x3F), where the two agree.  The
   Run arm is unreachable! in the source (next_chunk never passes Run
   here); it is totalized as prev. -/
def transform_chunk (seen : Fin 64 → Pixel) (prev : Pixel) : QOIChunk → Pixel
  | QOIChunk.ColorRGB p => p
  | QOIChunk.ColorRGBA p => p
  | QOIChunk.Index index => seen ⟨index % 64, Nat.mod_lt index (by decide)⟩
  | QOIChunk.Diff dr dg db =>
    ⟨((WrappedU8.mk prev.r).add dr).into_inner,
     ((WrappedU8.mk prev.g).add dg).into_inner,
     ((WrappedU8.mk prev.b).add db).into_inner,
     prev.a⟩
  | QOIChunk.Luma diff_green drdg dbdg =>
    ⟨(((WrappedU8.mk prev.r).add diff_green).add drdg).into_inner,
     ((WrappedU8.mk prev.g).add diff_green).into_inner,
     (((WrappedU8.mk prev.b).add diff_green).add dbdg).into_inner,
     prev.a⟩
  | QOIChunk.Run _ => prev

/- slice::rotate_left for a rotation count at most the length. -/
def rotate_left (l : List Nat) (n : Nat) : List Nat :=
  l.drop n ++ l.take n

/- The window refill of next_chunk (decoder.rs lines 360-367): rotate the
   8-byte window left by window_processed, then read that many fresh bytes
   into the vacated tail.  none models a failed read_exact. -/
def refill (s : DecodeChunks) : Option (List Nat × List Nat) :=
  let window1 :=
    if 0 < s.window_processed then rotate_left s.window s.window_processed
    else s.window
  match readExact s.decoder.source s.window_processed with
  | none => none
  | some (fresh, rest) =>
    some (window1.take (8 - s.window_processed) ++ fresh, rest)

/- The window-driven part of DecodeChunks::next_chunk (decoder.rs lines
   360-392), i.e. everything after the run-expansion check: refill the
   window, test the end marker, dispatch the tag, and either set up a run
   or reconstruct a pixel, write it into the cache and make it the new
   previous pixel.  In the source window_processed is set once for any
   matched chunk and the Run case is then handled by an if-let; both
   Run and non-Run arms here set it to the chunk's size. -/
def next_chunk_window (s : DecodeChunks) : EvaluatedChunk × DecodeChunks :=
  match refill s with
  | none => (EvaluatedChunk.readAbort, s)
  | some (w, rest) =>
    let s1 : DecodeChunks :=
      { s with window := w, decoder := { s.decoder with source := rest } }
    if w = QOI_END_MARKER then
      (EvaluatedChunk.EndMarker, s1)
    else
      match decode_next_chunk w s1.prev.a with
      | some (QOIChunk.Run run_length) =>
        let s2 := { s1 with window_processed := (QOIChunk.Run run_length).get_size }
        let biased := (run_length + 1) % 256
        let s3 := { s2 with run_active := true, run_length := (biased + 255) % 256 }
        (EvaluatedChunk.Ok s3.prev, s3)
      | some c =>
        let s2 := { s1 with window_processed := c.get_size }
        let pixel := transform_chunk s1.seen s1.prev c
        let seen1 : Fin 64 → Pixel :=
          fun j => if j.val = pixel.hash_index then pixel else s1.seen j
        let s3 := { s2 with prev := pixel, seen := seen1 }
        (EvaluatedChunk.Ok s3.prev, s3)
      | none => (EvaluatedChunk.Faulty "Unrecognized chunk", s1)

/- DecodeChunks::next_chunk (decoder.rs lines 349-392).  While a run is
   active with repetitions left, emit the previous pixel and consume
   nothing; when the active run is exhausted, clear the flag and fall
   through to the window-driven path. -/
def next_chunk (s : DecodeChunks) : EvaluatedChunk × DecodeChunks :=
  if s.run_active then
    if 0 < s.run_length then
      (EvaluatedChunk.Ok s.prev, { s with run_length := s.run_length - 1 })
    else
      next_chunk_window { s with run_active := false }
  else
    next_chunk_window s

/- Iterate next_chunk k times, collecting the per-step outcomes. -/
def runSteps : Nat → DecodeChunks → List EvaluatedChunk × DecodeChunks
  | 0, s => ([], s)
  | k + 1, s =>
    let step := next_chunk s
    let rest := runSteps k step.2
    (step.1 :: rest.1, rest.2)

/- The pixels emitted over k steps. -/
def emittedPixels (k : Nat) (s : DecodeChunks) : List Pixel :=
  (runSteps k s).1.filterMap fun r =>
    match r with
    | EvaluatedChunk.Ok p => some p
    | _ => none

example : decode_next_chunk [0xC3, 0, 0, 0, 0, 0, 0, 0] 255 = some (QOIChunk.Run 3) := by decide
example : decode_next_chunk [0, 0, 0, 0, 0, 0, 0, 0] 255 = none := by decide
example : decode_next_chunk [5, 0, 0, 0, 0, 0, 0, 0] 255 = some (QOIChunk.Index 5) := by decide
example : (runSteps 1 (session [0xC0, 0, 0, 0, 0, 0, 0, 0])).1 = [EvaluatedChunk.Ok ⟨0, 0, 0, 255⟩] := by decide
example : (next_chunk (session [])).1 = EvaluatedChunk.readAbort := by decide
example : (next_chunk (session [0, 0, 0, 0, 0, 0, 0, 1])).1 = EvaluatedChunk.EndMarker := by decide

/- ------------------------------------------------------------------ -/
/- Helper lemmas                                                       -/
/- ------------------------------------------------------------------ -/

set_option maxRecDepth 8192

theorem top2_lt_4 : ∀ t : Fin 256, ((t.val &&& 0xC0) >>> 6) < 4 := by decide

theorem run_tag_payload : ∀ t : Fin 256,
    t.val ≠ 0xFE → t.val ≠ 0xFF → ((t.val &&& 0xC0) >>> 6) = 3 →
    (t.val &&& 0x3F) ≤ 61 := by decide

/- Any chunk the tag decoder classifies as a Run carries a raw payload of
   at most 61: the two tags of top class 3 that would give 62 and 63 are
   claimed by the ColorRGB and ColorRGBA arms first. -/
theorem decode_run_bound (w : List Nat) (a n : Nat)
    (hb : w.getD 0 0 < 256)
    (hdec : decode_next_chunk w a = some (QOIChunk.Run n)) : n ≤ 61 := by
  simp only [decode_next_chunk] at hdec
  split_ifs at hdec with h1 h2 h3 h4 h5 h6
  · simp at hdec
  · simp at hdec
  · simp at hdec
  · simp at hdec
  · simp at hdec
  · simp only [Option.some.injEq, QOIChunk.Run.injEq] at hdec
    simp only [beq_iff_eq] at h1 h2
    simp only [tag_2bit, beq_iff_eq] at h6
    have hle : w.getD 0 0 &&& 0x3F ≤ 61 := run_tag_payload ⟨w.getD 0 0, hb⟩ h1 h2 h6
    omega

/- ------------------------------------------------------------------ -/
/- Claim C10                                                           -/
/- ------------------------------------------------------------------ -/

/-- Claim C10: every Run chunk produced by the tag decoder has raw payload
at most 61 (tags 0xFE and 0xFF, which would give payloads 62 and 63, are
claimed by the ColorRGB and ColorRGBA cases first), so the un-biasing
increment run_length + 1 never overflows the 8-bit counter and the stored
remaining-count (run_length + 1 wrapped, minus 1 wrapped) is the payload
itself, in 0..61. -/
theorem run_payload_le_61 (w : List Nat) (a n : Nat)
    (hb : w.getD 0 0 < 256)
    (hdec : decode_next_chunk w a = some (QOIChunk.Run n)) :
    n ≤ 61 ∧ (n + 1) % 256 = n + 1 ∧ ((n + 1) % 256 + 255) % 256 = n := by
  have h := decode_run_bound w a n hb hdec
  omega

/-- Witness for run_payload_le_61 at the Run tag 0xC3 (raw payload 3). -/
theorem run_payload_le_61_witness :
    3 ≤ 61 ∧ (3 + 1) % 256 = 3 + 1 ∧ ((3 + 1) % 256 + 255) % 256 = 3 :=
  run_payload_le_61 [0xC3, 0, 0, 0, 0, 0, 0, 0] 255 3 (by decide) (by decide)

/- ------------------------------------------------------------------ -/
/- Claim C1                                                            -/
/- ------------------------------------------------------------------ -/

/-- Claim C1, counterexample: the all-zero window is not the end marker,
yet the tag decoder matches none of the six chunk kinds and falls into the
unmatched-tag branch (which next_chunk reports as the fatal "unrecognized
chunk" fault): tag 0x00 has top bits 00, but the Index arm's guard
window[1] != tag rejects it, and no other arm covers top bits 00.  So the
six cases are not exhaustive over the tag byte alone and the
unmatched-tag branch is reachable. -/
theorem tag_exhaustiveness_counterexample :
    decode_next_chunk [0, 0, 0, 0, 0, 0, 0, 0] 255 = none ∧
      ([0, 0, 0, 0, 0, 0, 0, 0] : List Nat) ≠ QOI_END_MARKER := by decide

/-- Claim C1, amended: for every 8-byte window whose tag byte (window[0])
is a byte, the tag decoder classifies the window into one of the six chunk
kinds unless the tag has top bits 00 and window[1] equals the tag byte
(the Index arm's consecutive-index guard); only in that case is the
unmatched-tag branch reached. -/
theorem tag_exhaustiveness_amended (w : List Nat) (a : Nat)
    (hlen : w.length = 8)
    (hb : w.getD 0 0 < 256)
    (hidx : ¬(tag_2bit (w.getD 0 0) 0b00 = true ∧ w.getD 1 0 = w.getD 0 0)) :
    (decode_next_chunk w a).isSome = true := by
  match w, hlen with
  | [t, b1, b2, b3, b4, b5, b6, b7], _ =>
    simp only [List.getD_cons_zero, List.getD_cons_succ] at hb hidx
    simp only [decode_next_chunk, List.getD_cons_zero, List.getD_cons_succ, List.drop_succ_cons,
      List.drop_zero]
    by_cases h1 : t = 0xFE
    · simp [h1]
    by_cases h2 : t = 0xFF
    · simp [h1, h2]
    have htop : (t &&& 0xC0) >>> 6 < 4 := top2_lt_4 ⟨t, hb⟩
    have hcases : (t &&& 0xC0) >>> 6 = 0 ∨ (t &&& 0xC0) >>> 6 = 1 ∨
        (t &&& 0xC0) >>> 6 = 2 ∨ (t &&& 0xC0) >>> 6 = 3 := by omega
    rcases hcases with h | h | h | h
    · have hne : b1 ≠ t := by
        intro he
        exact hidx ⟨by simp [tag_2bit, h], he⟩
      simp [tag_2bit, h1, h2, h, hne]
    · simp [tag_2bit, h1, h2, h]
    · simp [tag_2bit, h1, h2, h]
    · simp [tag_2bit, h1, h2, h]

/-- Witness for tag_exhaustiveness_amended: window [5,0,...] (tag with top
bits 00, second byte different) is classified. -/
theorem tag_exhaustiveness_amended_witness :
    (decode_next_chunk [5, 0, 0, 0, 0, 0, 0, 0] 255).isSome = true :=
  tag_exhaustiveness_amended [5, 0, 0, 0, 0, 0, 0, 0] 255 (by decide) (by decide) (by decide)

/- ------------------------------------------------------------------ -/
/- Claims C4 and C5                                                    -/
/- ------------------------------------------------------------------ -/

/-- Claim C4: for every decoder state, reconstructing Diff(dr,dg,db)
yields (prev.r+dr, prev.g+dg, prev.b+db, prev.a) and reconstructing
Luma(dg,drdg,dbdg) yields (prev.r+dg+drdg, prev.g+dg, prev.b+dg+dbdg,
prev.a), every addition modulo 256, alpha unchanged in both, and the blue
channel of Luma using the dbdg field (not drdg). -/
theorem diff_luma_reconstruction (seen : Fin 64 → Pixel) (prev : Pixel)
    (dr dg db dgl drdg dbdg : Nat) :
    transform_chunk seen prev (QOIChunk.Diff dr dg db) =
      ⟨(prev.r + dr) % 256, (prev.g + dg) % 256, (prev.b + db) % 256, prev.a⟩ ∧
    transform_chunk seen prev (QOIChunk.Luma dgl drdg dbdg) =
      ⟨(prev.r + dgl + drdg) % 256, (prev.g + dgl) % 256,
        (prev.b + dgl + dbdg) % 256, prev.a⟩ := by
  constructor <;>
    simp [transform_chunk, WrappedU8.add, WrappedU8.into_inner, Nat.mod_add_mod]

/-- Claim C5: Diff and Luma reconstruction arithmetic is exact modulo-256
wraparound, never clamped or signed: in general the reconstructed red
channel of Diff is (prev.r + dr) mod 256, and in particular with previous
red 2 and red delta -3 (the 8-bit value 253) the result is 255. -/
theorem wraparound_exact (seen : Fin 64 → Pixel) (g b a dr dg db : Nat) :
    (∀ prev : Pixel,
      (transform_chunk seen prev (QOIChunk.Diff dr dg db)).r = (prev.r + dr) % 256) ∧
    (transform_chunk seen ⟨2, g, b, a⟩ (QOIChunk.Diff 253 dg db)).r = 255 := by
  constructor
  · intro prev
    simp [transform_chunk, WrappedU8.add, WrappedU8.into_inner]
  · simp [transform_chunk, WrappedU8.add, WrappedU8.into_inner]

/- ------------------------------------------------------------------ -/
/- Claim C7                                                            -/
/- ------------------------------------------------------------------ -/

/-- Claim C7: creating a decoder session reads exactly the 14-byte header
first and fails before any chunk is read if the source cannot supply 14
bytes (an I/O fault) or the first 4 bytes are not the ASCII literal qoif
(header-validation fault); on success the header exposes big-endian u32
width and height and the raw channels and colorspace bytes, and exactly
the 14 header bytes have been consumed. -/
theorem header_parsing (source : List Nat) :
    (source.length < 14 → ImageDecoder.new source = Except.error QOIError.IOFault) ∧
    (14 ≤ source.length → source.take 4 ≠ [0x71, 0x6F, 0x69, 0x66] →
      ImageDecoder.new source = Except.error QOIError.IncorrectMagic) ∧
    (14 ≤ source.length → source.take 4 = [0x71, 0x6F, 0x69, 0x66] →
      ImageDecoder.new source = Except.ok
        { source := source.drop 14,
          header := { width := be_u32 ((source.drop 4).take 4),
                      height := be_u32 ((source.drop 8).take 4),
                      channels := source.getD 12 0,
                      colorspace := source.getD 13 0 } }) := by
  refine ⟨?_, ?_, ?_⟩
  · intro h
    simp [ImageDecoder.new, parse_header, readExact, Nat.not_le.mpr h]
  · intro h14 hmagic
    have hrd : readExact source 14 = some (source.take 14, source.drop 14) := by
      simp [readExact, h14]
    have htk : (source.take 14).take 4 = source.take 4 := by
      simp [List.take_take]
    simp [ImageDecoder.new, parse_header, hrd, verify_magic, htk, hmagic]
  · intro h14 hmagic
    have hrd : readExact source 14 = some (source.take 14, source.drop 14) := by
      simp [readExact, h14]
    have htk : (source.take 14).take 4 = source.take 4 := by
      simp [List.take_take]
    have hw : ((source.take 14).drop 4).take 4 = (source.drop 4).take 4 := by
      simp [List.drop_take, List.take_take]
    have hh : ((source.take 14).drop 8).take 4 = (source.drop 8).take 4 := by
      simp [List.drop_take, List.take_take]
    have hc : (source.take 14).getD 12 0 = source.getD 12 0 := by
      simp [List.getD_eq_getElem?_getD, List.getElem?_take]
    have hcs : (source.take 14).getD 13 0 = source.getD 13 0 := by
      simp [List.getD_eq_getElem?_getD, List.getElem?_take]
    simp [ImageDecoder.new, parse_header, hrd, verify_magic, htk, hmagic, hw, hh, hc, hcs]

/-- Witness for header_parsing: a well-formed 14-byte header (4x2 image,
3 channels) parses, and a 3-byte source is an I/O fault. -/
theorem header_parsing_witness :
    ImageDecoder.new
        [0x71, 0x6F, 0x69, 0x66, 0, 0, 0, 4, 0, 0, 0, 2, 3, 0, 0xC3] =
      Except.ok
        { source := [0xC3],
          header := { width := 4, height := 2, channels := 3, colorspace := 0 } } ∧
    ImageDecoder.new [1, 2, 3] = Except.error QOIError.IOFault := by
  constructor
  · have h := (header_parsing
      [0x71, 0x6F, 0x69, 0x66, 0, 0, 0, 4, 0, 0, 0, 2, 3, 0, 0xC3]).2.2
      (by decide) (by decide)
    rw [h]
    rfl
  · exact (header_parsing [1, 2, 3]).1 (by decide)

/- ------------------------------------------------------------------ -/
/- Claim C2                                                            -/
/- ------------------------------------------------------------------ -/

/-- Claim C2: on every step that consults the stream window (no active
run with repetitions left), if the refilled 8-byte window equals the end
marker [0,0,0,0,0,0,0,1], the decoder reports clean end-of-stream before
any tag dispatch: no pixel is produced and no chunk is decoded on that
step (prev, seen and window_processed are untouched), even though the
leading byte 0x00 alone is a valid Index tag. -/
theorem end_marker_precedence (s : DecodeChunks)
    (hrun : s.run_active = true → s.run_length = 0)
    (w rest : List Nat)
    (hw : refill s = some (w, rest))
    (hend : w = QOI_END_MARKER) :
    (next_chunk s).1 = EvaluatedChunk.EndMarker ∧
    (next_chunk s).2.prev = s.prev ∧
    (next_chunk s).2.seen = s.seen ∧
    (next_chunk s).2.window_processed = s.window_processed := by
  have key : ∀ t : DecodeChunks, refill t = some (w, rest) →
      next_chunk_window t = (EvaluatedChunk.EndMarker,
        { t with window := w, decoder := { t.decoder with source := rest } }) := by
    intro t hw'
    rw [next_chunk_window, hw']
    simp [hend]
  by_cases hra : s.run_active
  · have hrl : s.run_length = 0 := hrun hra
    have hnc : next_chunk s = next_chunk_window { s with run_active := false } := by
      simp [next_chunk, hra, hrl]
    rw [hnc, key { s with run_active := false } (by exact hw)]
    simp
  · have hnc : next_chunk s = next_chunk_window s := by
      simp [next_chunk, hra]
    rw [hnc, key s hw]
    simp

/-- Witness for end_marker_precedence: a fresh session whose source is
exactly the end marker ends cleanly on the first step. -/
theorem end_marker_precedence_witness :
    (next_chunk (session [0, 0, 0, 0, 0, 0, 0, 1])).1 = EvaluatedChunk.EndMarker ∧
    (next_chunk (session [0, 0, 0, 0, 0, 0, 0, 1])).2.prev =
      (session [0, 0, 0, 0, 0, 0, 0, 1]).prev ∧
    (next_chunk (session [0, 0, 0, 0, 0, 0, 0, 1])).2.seen =
      (session [0, 0, 0, 0, 0, 0, 0, 1]).seen ∧
    (next_chunk (session [0, 0, 0, 0, 0, 0, 0, 1])).2.window_processed =
      (session [0, 0, 0, 0, 0, 0, 0, 1]).window_processed :=
  end_marker_precedence (session [0, 0, 0, 0, 0, 0, 0, 1]) (by decide)
    QOI_END_MARKER [] (by decide) rfl

/- ------------------------------------------------------------------ -/
/- Claim C8                                                            -/
/- ------------------------------------------------------------------ -/

/-- Claim C8, counterexample: on a source that cannot supply the
requested bytes, the step outcome is the modelled panic (readAbort) of
the .expect call — it is not the per-step fault signal (Faulty) and not a
pixel or a clean end, so the caller does not observe one of the three
claimed signals on that step. -/
theorem truncated_stream_counterexample :
    (next_chunk (session [])).1 = EvaluatedChunk.readAbort ∧
    (next_chunk (session [])).1 ≠ EvaluatedChunk.EndMarker ∧
    (next_chunk (session [])).1 ≠ EvaluatedChunk.Faulty "Unrecognized chunk" := by
  decide

/-- Claim C8, amended: if the underlying source cannot supply the bytes
the refill requests, the fault is fatal and not retried, but it surfaces
as a process abort (the .expect panic, modelled as readAbort), not as a
per-step fault value; no source bytes are consumed by the failing step. -/
theorem truncated_stream_amended (s : DecodeChunks)
    (hrun : s.run_active = true → s.run_length = 0)
    (hshort : s.decoder.source.length < s.window_processed) :
    (next_chunk s).1 = EvaluatedChunk.readAbort ∧
    (next_chunk s).2.decoder.source = s.decoder.source := by
  have hre : ∀ t : DecodeChunks, t.decoder.source.length < t.window_processed →
      refill t = none := by
    intro t ht
    simp [refill, readExact, Nat.not_le.mpr ht]
  have key : ∀ t : DecodeChunks, refill t = none →
      next_chunk_window t = (EvaluatedChunk.readAbort, t) := by
    intro t hw'
    rw [next_chunk_window, hw']
  by_cases hra : s.run_active
  · have hrl : s.run_length = 0 := hrun hra
    have hnc : next_chunk s = next_chunk_window { s with run_active := false } := by
      simp [next_chunk, hra, hrl]
    rw [hnc, key { s with run_active := false } (hre _ (by exact hshort))]
    simp
  · have hnc : next_chunk s = next_chunk_window s := by
      simp [next_chunk, hra]
    rw [hnc, key s (hre s hshort)]
    simp

/-- Witness for truncated_stream_amended: a 3-byte source cannot fill the
initial 8-byte window. -/
theorem truncated_stream_amended_witness :
    (next_chunk (session [1, 2, 3])).1 = EvaluatedChunk.readAbort ∧
    (next_chunk (session [1, 2, 3])).2.decoder.source =
      (session [1, 2, 3]).decoder.source :=
  truncated_stream_amended (session [1, 2, 3]) (by decide) (by decide)

/- ------------------------------------------------------------------ -/
/- Claim C9                                                            -/
/- ------------------------------------------------------------------ -/

/-- Claim C9, evaluated at the failing input: the post-header stream
[0,0,0,0,0,0,0,2, 3,3,3,3,3,3,3,3] makes the first window decode as an
unrecognized chunk (tag 0x00 with window[1] = 0x00, rejected by the Index
arm's guard, matched by no other arm).  The driver reports the Faulty
signal, but it enters no terminal state (the ended flag is never written
or read): called again, it rotates the window and reads 8 further bytes
from the source — the remaining source shrinks from 8 bytes to 0 after
the post-fault step, contradicting the claim that the driver never
consumes further bytes after a fault. -/
theorem fault_keeps_consuming :
    (next_chunk (session [0, 0, 0, 0, 0, 0, 0, 2, 3, 3, 3, 3, 3, 3, 3, 3])).1 =
      EvaluatedChunk.Faulty "Unrecognized chunk" ∧
    (next_chunk (session [0, 0, 0, 0, 0, 0, 0, 2, 3, 3, 3, 3, 3, 3, 3, 3])).2.decoder.source.length = 8 ∧
    (next_chunk (next_chunk (session [0, 0, 0, 0, 0, 0, 0, 2, 3, 3, 3, 3, 3, 3, 3, 3])).2).1 =
      EvaluatedChunk.Faulty "Unrecognized chunk" ∧
    (next_chunk (next_chunk (session [0, 0, 0, 0, 0, 0, 0, 2, 3, 3, 3, 3, 3, 3, 3, 3])).2).2.decoder.source.length = 0 := by
  decide

/- ------------------------------------------------------------------ -/
/- Claim C3                                                            -/
/- ------------------------------------------------------------------ -/

theorem runSteps_succ (k : Nat) (s : DecodeChunks) :
    runSteps (k + 1) s =
      ((next_chunk s).1 :: (runSteps k (next_chunk s).2).1,
        (runSteps k (next_chunk s).2).2) := rfl

/- Draining an active run: while run_active holds with at least k
   repetitions left, k steps emit the previous pixel k times and only
   decrement the counter; no other state changes and no bytes are read. -/
theorem run_drain : ∀ (k : Nat) (s : DecodeChunks), s.run_active = true →
    k ≤ s.run_length →
    runSteps k s = (List.replicate k (EvaluatedChunk.Ok s.prev),
      { s with run_length := s.run_length - k }) := by
  intro k
  induction k with
  | zero =>
    intro s _ _
    simp [runSteps]
  | succ k ih =>
    intro s hra hk
    have hpos : 0 < s.run_length := by omega
    have hstep : next_chunk s =
        (EvaluatedChunk.Ok s.prev, { s with run_length := s.run_length - 1 }) := by
      simp [next_chunk, hra, hpos]
    have ih' := ih { s with run_length := s.run_length - 1 } (by exact hra) (by simp; omega)
    rw [runSteps_succ, hstep]
    simp only at ih' ⊢
    rw [ih']
    have harith : s.run_length - 1 - k = s.run_length - (k + 1) := by omega
    simp [List.replicate_succ, harith]

/-- Claim C3: a step that reads a Run chunk with raw payload n (with no
run already active) yields exactly n+1 pixels over the next n+1
consecutive steps, each equal to the previous pixel at the moment the Run
chunk was read; only the Run chunk's own refill consumes stream bytes
(the source after the n+1 steps is exactly the remainder rest left by
that refill), and the whole expansion neither writes the pixel cache nor
changes the previous pixel. -/
theorem run_semantics (s : DecodeChunks)
    (hra : s.run_active = false)
    (w rest : List Nat) (n : Nat)
    (hb : w.getD 0 0 < 256)
    (hw : refill s = some (w, rest))
    (hend : w ≠ QOI_END_MARKER)
    (hdec : decode_next_chunk w s.prev.a = some (QOIChunk.Run n)) :
    (runSteps (n + 1) s).1 = List.replicate (n + 1) (EvaluatedChunk.Ok s.prev) ∧
    (runSteps (n + 1) s).2.prev = s.prev ∧
    (runSteps (n + 1) s).2.seen = s.seen ∧
    (runSteps (n + 1) s).2.decoder.source = rest ∧
    (runSteps (n + 1) s).2.run_active = true ∧
    (runSteps (n + 1) s).2.run_length = 0 := by
  have hn : n ≤ 61 := decode_run_bound w s.prev.a n hb hdec
  have hrl : ((n + 1) % 256 + 255) % 256 = n := by omega
  have hstep : next_chunk s = (EvaluatedChunk.Ok s.prev, { s with window := w, decoder := { s.decoder with source := rest }, window_processed := 1, run_active := true, run_length := n }) := by
    have h1 : next_chunk s = next_chunk_window s := by
      simp [next_chunk, hra]
    rw [h1, next_chunk_window, hw]
    simp only [if_neg hend]
    rw [show decode_next_chunk w ({ s with window := w, decoder := { s.decoder with source := rest } } : DecodeChunks).prev.a = some (QOIChunk.Run n) from hdec]
    simp [QOIChunk.get_size, hrl]
  have hdr := run_drain n { s with window := w, decoder := { s.decoder with source := rest }, window_processed := 1, run_active := true, run_length := n } rfl (by simp)
  rw [runSteps_succ, hstep]
  simp only at hdr ⊢
  rw [hdr]
  simp [List.replicate_succ]

/-- Witness for run_semantics: a fresh session whose first chunk is the
Run tag 0xC3 (raw payload 3) emits the initial previous pixel 4 times. -/
theorem run_semantics_witness :
    (runSteps 4 (session [0xC3, 0, 0, 0, 0, 0, 0, 2])).1 =
      List.replicate 4 (EvaluatedChunk.Ok (session [0xC3, 0, 0, 0, 0, 0, 0, 2]).prev) ∧
    (runSteps 4 (session [0xC3, 0, 0, 0, 0, 0, 0, 2])).2.prev =
      (session [0xC3, 0, 0, 0, 0, 0, 0, 2]).prev ∧
    (runSteps 4 (session [0xC3, 0, 0, 0, 0, 0, 0, 2])).2.seen =
      (session [0xC3, 0, 0, 0, 0, 0, 0, 2]).seen ∧
    (runSteps 4 (session [0xC3, 0, 0, 0, 0, 0, 0, 2])).2.decoder.source = [] ∧
    (runSteps 4 (session [0xC3, 0, 0, 0, 0, 0, 0, 2])).2.run_active = true ∧
    (runSteps 4 (session [0xC3, 0, 0, 0, 0, 0, 0, 2])).2.run_length = 0 :=
  run_semantics (session [0xC3, 0, 0, 0, 0, 0, 0, 2]) rfl
    [0xC3, 0, 0, 0, 0, 0, 0, 2] [] 3 (by decide) (by decide) (by decide) (by decide)

/- ------------------------------------------------------------------ -/
/- Claim C6                                                            -/
/- ------------------------------------------------------------------ -/

/- The pixel that the window-driven part of next_chunk writes into the
   seen cache, if any: the reconstructed pixel of a matched non-Run
   chunk.  Run setup, the end marker, a fault and a failed read write
   nothing. -/
def coreWritten (t : DecodeChunks) : Option Pixel :=
  match refill t with
  | none => none
  | some (w, _) =>
    if w = QOI_END_MARKER then none
    else
      match decode_next_chunk w t.prev.a with
      | some (QOIChunk.Run _) => none
      | some c => some (transform_chunk t.seen t.prev c)
      | none => none

/- The pixel a whole next_chunk step writes into the cache, if any: a
   run-expansion step writes nothing. -/
def chunkWritten (s : DecodeChunks) : Option Pixel :=
  if s.run_active = true ∧ 0 < s.run_length then none else coreWritten s

/- The pixels written into the cache over k steps, oldest first.  These
   are exactly the pixels reconstructed from non-Run chunks. -/
def writtenTrace : Nat → DecodeChunks → List Pixel
  | 0, _ => []
  | k + 1, s => (chunkWritten s).toList ++ writtenTrace k (next_chunk s).2

/- The direct-mapped last-write-wins contract between a write trace and
   the cache: every slot holds the most recent written pixel hashing to
   it, and the initial zero pixel if none does. -/
def slotSpec (written : List Pixel) (seen : Fin 64 → Pixel) : Prop :=
  ∀ i : Fin 64,
    seen i = ((written.filter (fun p => p.hash_index == i.val)).getLast?).getD Pixel.zero

theorem slotSpec_write (written : List Pixel) (seen : Fin 64 → Pixel) (p : Pixel)
    (h : slotSpec written seen) :
    slotSpec (written ++ [p]) (fun j => if j.val = p.hash_index then p else seen j) := by
  intro i
  by_cases hi : i.val = p.hash_index
  · have hfp : List.filter (fun q => q.hash_index == i.val) [p] = [p] := by
      simp [hi]
    rw [List.filter_append, hfp, List.getLast?_concat]
    simp [hi]
  · have hfp : List.filter (fun q => q.hash_index == i.val) [p] = [] := by
      simp
      intro he
      exact hi he.symm
    rw [List.filter_append, hfp, List.append_nil]
    simp only [hi, if_false]
    exact h i

theorem core_seen (t : DecodeChunks) :
    (coreWritten t = none ∧ (next_chunk_window t).2.seen = t.seen) ∨
    (∃ p, coreWritten t = some p ∧
      (next_chunk_window t).2.seen = fun j => if j.val = p.hash_index then p else t.seen j) := by
  rcases hrf : refill t with _ | ⟨w, rest⟩
  · left
    constructor
    · simp [coreWritten, hrf]
    · rw [next_chunk_window, hrf]
  · by_cases hem : w = QOI_END_MARKER
    · left
      constructor
      · simp [coreWritten, hrf, hem]
      · rw [next_chunk_window, hrf]
        simp [hem]
    · rcases hdc : decode_next_chunk w t.prev.a with _ | c
      · left
        constructor
        · simp [coreWritten, hrf, hem, hdc]
        · rw [next_chunk_window, hrf]
          simp only [if_neg hem]
          rw [show decode_next_chunk w ({ t with window := w, decoder := { t.decoder with source := rest } } : DecodeChunks).prev.a = none from hdc]
      · cases c with
        | Run n =>
          left
          constructor
          · simp [coreWritten, hrf, hem, hdc]
          · rw [next_chunk_window, hrf]
            simp only [if_neg hem]
            rw [show decode_next_chunk w ({ t with window := w, decoder := { t.decoder with source := rest } } : DecodeChunks).prev.a = some (QOIChunk.Run n) from hdc]
        | ColorRGB p =>
          right
          refine ⟨transform_chunk t.seen t.prev (QOIChunk.ColorRGB p), ?_, ?_⟩
          · simp [coreWritten, hrf, hem, hdc]
          · rw [next_chunk_window, hrf]
            simp only [if_neg hem]
            rw [show decode_next_chunk w ({ t with window := w, decoder := { t.decoder with source := rest } } : DecodeChunks).prev.a = some (QOIChunk.ColorRGB p) from hdc]
        | ColorRGBA p =>
          right
          refine ⟨transform_chunk t.seen t.prev (QOIChunk.ColorRGBA p), ?_, ?_⟩
          · simp [coreWritten, hrf, hem, hdc]
          · rw [next_chunk_window, hrf]
            simp only [if_neg hem]
            rw [show decode_next_chunk w ({ t with window := w, decoder := { t.decoder with source := rest } } : DecodeChunks).prev.a = some (QOIChunk.ColorRGBA p) from hdc]
        | Index i =>
          right
          refine ⟨transform_chunk t.seen t.prev (QOIChunk.Index i), ?_, ?_⟩
          · simp [coreWritten, hrf, hem, hdc]
          · rw [next_chunk_window, hrf]
            simp only [if_neg hem]
            rw [show decode_next_chunk w ({ t with window := w, decoder := { t.decoder with source := rest } } : DecodeChunks).prev.a = some (QOIChunk.Index i) from hdc]
        | Diff dr dg db =>
          right
          refine ⟨transform_chunk t.seen t.prev (QOIChunk.Diff dr dg db), ?_, ?_⟩
          · simp [coreWritten, hrf, hem, hdc]
          · rw [next_chunk_window, hrf]
            simp only [if_neg hem]
            rw [show decode_next_chunk w ({ t with window := w, decoder := { t.decoder with source := rest } } : DecodeChunks).prev.a = some (QOIChunk.Diff dr dg db) from hdc]
        | Luma dgl drdg dbdg =>
          right
          refine ⟨transform_chunk t.seen t.prev (QOIChunk.Luma dgl drdg dbdg), ?_, ?_⟩
          · simp [coreWritten, hrf, hem, hdc]
          · rw [next_chunk_window, hrf]
            simp only [if_neg hem]
            rw [show decode_next_chunk w ({ t with window := w, decoder := { t.decoder with source := rest } } : DecodeChunks).prev.a = some (QOIChunk.Luma dgl drdg dbdg) from hdc]

theorem step_seen (s : DecodeChunks) :
    (chunkWritten s = none ∧ (next_chunk s).2.seen = s.seen) ∨
    (∃ p, chunkWritten s = some p ∧
      (next_chunk s).2.seen = fun j => if j.val = p.hash_index then p else s.seen j) := by
  by_cases hra : s.run_active
  · by_cases hrl : 0 < s.run_length
    · left
      constructor
      · simp [chunkWritten, hra, hrl]
      · simp [next_chunk, hra, hrl]
    · have hcw : chunkWritten s = coreWritten s := by
        simp [chunkWritten, hrl]
      have hnc : next_chunk s = next_chunk_window { s with run_active := false } := by
        simp [next_chunk, hra, Nat.not_lt.mp (by exact hrl)]
      have hcore := core_seen { s with run_active := false }
      rw [hcw, hnc]
      have hcw2 : coreWritten s = coreWritten { s with run_active := false } := rfl
      rw [hcw2]
      simpa using hcore
  · have hnc : next_chunk s = next_chunk_window s := by
      simp [next_chunk, hra]
    have hcw : chunkWritten s = coreWritten s := by
      simp [chunkWritten, hra]
    rw [hcw, hnc]
    exact core_seen s

theorem slotSpec_runSteps : ∀ (k : Nat) (s : DecodeChunks) (written : List Pixel),
    slotSpec written s.seen →
    slotSpec (written ++ writtenTrace k s) ((runSteps k s).2.seen) := by
  intro k
  induction k with
  | zero =>
    intro s written h
    simpa [writtenTrace, runSteps] using h
  | succ k ih =>
    intro s written h
    have hW : writtenTrace (k + 1) s =
        (chunkWritten s).toList ++ writtenTrace k (next_chunk s).2 := rfl
    have hR : (runSteps (k + 1) s).2 = (runSteps k (next_chunk s).2).2 := rfl
    rw [hW, hR, ← List.append_assoc]
    apply ih
    rcases step_seen s with ⟨hnil, hseen⟩ | ⟨p, hp, hseen⟩
    · rw [hnil, hseen]
      simpa using h
    · rw [hp, hseen]
      exact slotSpec_write written s.seen p h

/-- Claim C6, amended: cache invariant for reconstructor-produced pixels.
With slot index hash_index P = (3 P.r + 5 P.g + 7 P.b + 11 P.a) mod 64,
after the decoder processes any number of steps from a fresh session, for
every slot i of the 64-slot cache (initialized all-zero, direct-mapped,
last-write-wins), if any pixel produced by a non-Run chunk since session
start hashes to i, then slot i holds the most recently produced such
pixel.  Pixels merely re-emitted by Run chunks are not tracked (see the
counterexample: a leading Run replays the initial previous pixel, which
is in no slot). -/
theorem cache_invariant_amended (source : List Nat) (k : Nat) (i : Fin 64)
    (hne : (writtenTrace k (session source)).filter (fun p => p.hash_index == i.val) ≠ []) :
    ((writtenTrace k (session source)).filter (fun p => p.hash_index == i.val)).getLast? =
      some ((runSteps k (session source)).2.seen i) := by
  have h0 : slotSpec [] (session source).seen := by
    intro j
    simp [session, DecodeChunks.new, List.filter_nil]
  have h := slotSpec_runSteps k (session source) [] h0
  rw [List.nil_append] at h
  have hi := h i
  rcases hlast : ((writtenTrace k (session source)).filter (fun p => p.hash_index == i.val)).getLast? with _ | x
  · rcases hfl : (writtenTrace k (session source)).filter (fun p => p.hash_index == i.val) with _ | ⟨q, l⟩
    · exact absurd hfl hne
    · rw [hfl] at hlast
      simp [List.getLast?] at hlast
  · rw [hlast] at hi
    rw [hi, hlast]
    rfl

/-- Witness for cache_invariant_amended: after one ColorRGB chunk the
pixel (10,20,30,255), whose hash slot is 9, sits in slot 9. -/
theorem cache_invariant_amended_witness :
    ((writtenTrace 1 (session [0xFE, 10, 20, 30, 0, 0, 0, 0])).filter
        (fun p => p.hash_index == (9 : Fin 64).val)).getLast? =
      some ((runSteps 1 (session [0xFE, 10, 20, 30, 0, 0, 0, 0])).2.seen (9 : Fin 64)) :=
  cache_invariant_amended [0xFE, 10, 20, 30, 0, 0, 0, 0] 1 (9 : Fin 64) (by decide)

/- Claim C6 as frozen reads the invariant over every decoded (emitted)
   pixel, Run re-emissions included. -/
def cacheInvariantClaimed (source : List Nat) (k : Nat) : Prop :=
  ∀ i : Fin 64,
    (emittedPixels k (session source)).filter (fun p => p.hash_index == i.val) ≠ [] →
    ((emittedPixels k (session source)).filter (fun p => p.hash_index == i.val)).getLast? =
      some ((runSteps k (session source)).2.seen i)

/-- Claim C6, counterexample: a session whose first chunk is the Run tag
0xC0 decodes one pixel, the initial previous pixel (0,0,0,255), whose
hash slot is 53; the Run writes nothing, so slot 53 still holds the
all-zero initial pixel and not the most recently decoded pixel hashing
to 53.  The invariant over all decoded pixels is therefore false. -/
theorem cache_invariant_counterexample :
    ¬ cacheInvariantClaimed [0xC0, 0, 0, 0, 0, 0, 0, 0] 1 :=
  fun h => absurd (h (53 : Fin 64) (by decide)) (by decide)
